import Mathlib

/-!
Verification of the Human Detection node (worker supervision and
streaming-protocol layer) of the pepper-middleware fork.  The node is
embedded shallowly: JavaScript values flowing over the worker's line
protocol become `JVal`, the node's mutable variables (`pythonProcess`,
`waitingNode`, `timeoutId`, the per-spawn `dataBuffer`) become the state
record `S`, and every observable side effect (sends on the two output
channels, `node.error`, `node.log`, `node.warn`, `node.status`, process
kills, timer arm/disarm) becomes an `Act` in an ordered action list.
Asynchronous callbacks are modelled as serialized `Event`s, reflecting the
single-threaded Node.js event loop.
-/

namespace HumanDetection

/-- Exact decimal number decoded from JSON text: the value
`num * 10 ^ exp10`.  The pair is kept unnormalized so that evaluation
stays definitional; `JNum.toRat` gives the represented rational. -/
structure JNum where
  num : Int
  exp10 : Int
deriving DecidableEq

/-- The rational value a decoded number denotes. -/
def JNum.toRat (n : JNum) : ℚ := (n.num : ℚ) * (10 : ℚ) ^ n.exp10

/-- Decoded JSON value, as produced by `JSON.parse` on a protocol line. -/
inductive JVal where
  | jnull : JVal
  | jbool (b : Bool) : JVal
  | jnum (n : JNum) : JVal
  | jstr (s : String) : JVal
  | jarr (xs : List JVal) : JVal
  | jobj (fields : List (String × JVal)) : JVal

/-- Field lookup in a JSON object member list (first match). -/
def lookupField : List (String × JVal) → String → Option JVal
  | [], _ => none
  | (k, v) :: rest, key => if k == key then some v else lookupField rest key

/-- Property access `j.key`; `none` models the JavaScript `undefined`. -/
def getField : JVal → String → Option JVal
  | .jobj fields, key => lookupField fields key
  | _, _ => none

/-- JavaScript truthiness of a JSON value (a number is truthy iff it is
nonzero, i.e. iff its mantissa is nonzero). -/
def truthy : JVal → Bool
  | .jnull => false
  | .jbool b => b
  | .jnum n => n.num != 0
  | .jstr s => s != ""
  | .jarr _ => true
  | .jobj _ => true

/-- Truthiness of a possibly-undefined value (`undefined` is falsy). -/
def truthyOpt : Option JVal → Bool
  | none => false
  | some v => truthy v

/-- Whitespace recognized inside JSON text. -/
def isJsonWs (c : Char) : Bool :=
  c == ' ' || c == '\t' || c == '\n' || c == '\r'

def skipWs (cs : List Char) : List Char := cs.dropWhile isJsonWs

/-- Whitespace removed by `String.prototype.trim` (ASCII part). -/
def isJsWs (c : Char) : Bool :=
  c == ' ' || c == '\t' || c == '\n' || c == '\r' || c == '\x0b' || c == '\x0c'

/-- JavaScript `line.trim()` over a character list. -/
def jsTrim (l : List Char) : List Char :=
  ((l.dropWhile isJsWs).reverse.dropWhile isJsWs).reverse

def digitsToNat : List Char → Nat → Nat
  | [], acc => acc
  | c :: cs, acc => digitsToNat cs (acc * 10 + (c.toNat - '0'.toNat))

/-- Fractional part of a JSON number: the digits after `.`, or none. -/
def parseFrac : List Char → Option (List Char × List Char)
  | '.' :: r =>
      let fd := r.takeWhile Char.isDigit
      let r2 := r.dropWhile Char.isDigit
      if fd.isEmpty then none
      else some (fd, r2)
  | cs => some ([], cs)

/-- Exponent part of a JSON number: `[eE][+-]?digits`, or nothing. -/
def parseExp : List Char → Option (Int × List Char)
  | c :: r =>
      if c == 'e' || c == 'E' then
        let (sgn, r1) : Int × List Char :=
          match r with
          | '+' :: t => (1, t)
          | '-' :: t => (-1, t)
          | t => (1, t)
        let ed := r1.takeWhile Char.isDigit
        let r2 := r1.dropWhile Char.isDigit
        if ed.isEmpty then none else some (sgn * (digitsToNat ed 0 : Int), r2)
      else some (0, c :: r)
  | [] => some (0, [])

/-- JSON number grammar: optional minus, integer part without leading
zeros, optional fraction, optional exponent.  The digits of the integer
and fractional parts form the mantissa; the decimal exponent is the
written exponent minus the number of fractional digits. -/
def parseNum (cs : List Char) : Option (JNum × List Char) :=
  let (neg, cs1) : Bool × List Char :=
    match cs with
    | '-' :: r => (true, r)
    | r => (false, r)
  match cs1 with
  | c :: _ =>
      if c.isDigit then
        let ds := cs1.takeWhile Char.isDigit
        let rest := cs1.dropWhile Char.isDigit
        if c == '0' && ds.length > 1 then none
        else
          match parseFrac rest with
          | none => none
          | some (fd, rest2) =>
              match parseExp rest2 with
              | none => none
              | some (e, rest3) =>
                  let mant : Int := (digitsToNat (ds ++ fd) 0 : Int)
                  some (⟨(if neg then -mant else mant), e - (fd.length : Int)⟩,
                        rest3)
      else none
  | [] => none

def hexVal (c : Char) : Option Nat :=
  if '0' ≤ c ∧ c ≤ '9' then some (c.toNat - '0'.toNat)
  else if 'a' ≤ c ∧ c ≤ 'f' then some (c.toNat - 'a'.toNat + 10)
  else if 'A' ≤ c ∧ c ≤ 'F' then some (c.toNat - 'A'.toNat + 10)
  else none

/-- Body of a JSON string after the opening quote: characters until the
closing quote, with escape sequences; unescaped control characters are
rejected, as `JSON.parse` does. -/
def parseStrBody : List Char → Option (List Char × List Char)
  | [] => none
  | '"' :: rest => some ([], rest)
  | '\\' :: e :: rest =>
      match e with
      | '"' => (parseStrBody rest).map fun p => ('"' :: p.1, p.2)
      | '\\' => (parseStrBody rest).map fun p => ('\\' :: p.1, p.2)
      | '/' => (parseStrBody rest).map fun p => ('/' :: p.1, p.2)
      | 'b' => (parseStrBody rest).map fun p => ('\x08' :: p.1, p.2)
      | 'f' => (parseStrBody rest).map fun p => ('\x0c' :: p.1, p.2)
      | 'n' => (parseStrBody rest).map fun p => ('\n' :: p.1, p.2)
      | 'r' => (parseStrBody rest).map fun p => ('\r' :: p.1, p.2)
      | 't' => (parseStrBody rest).map fun p => ('\t' :: p.1, p.2)
      | 'u' =>
          match rest with
          | h1 :: h2 :: h3 :: h4 :: r =>
              match hexVal h1, hexVal h2, hexVal h3, hexVal h4 with
              | some a, some b, some c, some d =>
                  (parseStrBody r).map fun p =>
                    (Char.ofNat (((a * 16 + b) * 16 + c) * 16 + d) :: p.1, p.2)
              | _, _, _, _ => none
          | _ => none
      | _ => none
  | c :: rest =>
      if c.toNat < 0x20 then none
      else (parseStrBody rest).map fun p => (c :: p.1, p.2)

mutual

/-- Recursive-descent JSON value parser; the fuel bounds nesting depth. -/
def parseVal : Nat → List Char → Option (JVal × List Char)
  | 0, _ => none
  | Nat.succ f, cs =>
      match skipWs cs with
      | '{' :: rest =>
          (match skipWs rest with
           | '}' :: r2 => some (.jobj [], r2)
           | r2 => parseMembers f [] r2)
      | '[' :: rest =>
          (match skipWs rest with
           | ']' :: r2 => some (.jarr [], r2)
           | r2 => parseElems f [] r2)
      | '"' :: rest => (parseStrBody rest).map fun p => (.jstr (String.mk p.1), p.2)
      | 't' :: 'r' :: 'u' :: 'e' :: r => some (.jbool true, r)
      | 'f' :: 'a' :: 'l' :: 's' :: 'e' :: r => some (.jbool false, r)
      | 'n' :: 'u' :: 'l' :: 'l' :: r => some (.jnull, r)
      | cs2 => (parseNum cs2).map fun p => (.jnum p.1, p.2)

/-- Members of a JSON object after the opening brace (nonempty case). -/
def parseMembers : Nat → List (String × JVal) → List Char → Option (JVal × List Char)
  | 0, _, _ => none
  | Nat.succ f, acc, cs =>
      match skipWs cs with
      | '"' :: rest =>
          (match parseStrBody rest with
           | none => none
           | some (key, r1) =>
               match skipWs r1 with
               | ':' :: r2 =>
                   (match parseVal f r2 with
                    | none => none
                    | some (v, r3) =>
                        match skipWs r3 with
                        | ',' :: r4 => parseMembers f ((String.mk key, v) :: acc) r4
                        | '}' :: r4 => some (.jobj ((String.mk key, v) :: acc).reverse, r4)
                        | _ => none)
               | _ => none)
      | _ => none

/-- Elements of a JSON array after the opening bracket (nonempty case). -/
def parseElems : Nat → List JVal → List Char → Option (JVal × List Char)
  | 0, _, _ => none
  | Nat.succ f, acc, cs =>
      match parseVal f cs with
      | none => none
      | some (v, r) =>
          match skipWs r with
          | ',' :: r2 => parseElems f (v :: acc) r2
          | ']' :: r2 => some (.jarr (v :: acc).reverse, r2)
          | _ => none

end

/-- JavaScript `JSON.parse` on one protocol line: a single value with
only whitespace around it, otherwise a parse failure. -/
def jsonParse (l : List Char) : Option JVal :=
  match parseVal (l.length + 1) l with
  | some (v, rest) => if (skipWs rest).isEmpty then some v else none
  | none => none

/-- JavaScript `ToNumber` coercion of a decoded string, modelled for
plain decimal literals (the worker protocol sends numeric counts);
`none` stands for `NaN`. -/
def jsStrToNum (s : String) : Option JNum :=
  let t := jsTrim s.toList
  if t.isEmpty then some ⟨0, 0⟩
  else
    let (neg, t1) : Bool × List Char :=
      match t with
      | '-' :: r => (true, r)
      | '+' :: r => (false, r)
      | r => (false, r)
    match parseNum t1 with
    | some (n, []) => some (if neg then ⟨-n.num, n.exp10⟩ else n)
    | _ => none

/-- JavaScript `ToNumber` of a JSON value; arrays and objects are
modelled as `NaN` (the worker protocol sends numeric counts). -/
def jsToNum : JVal → Option JNum
  | .jnull => some ⟨0, 0⟩
  | .jbool b => some (if b then ⟨1, 0⟩ else ⟨0, 0⟩)
  | .jnum n => some n
  | .jstr s => jsStrToNum s
  | .jarr _ => none
  | .jobj _ => none

/-- The JavaScript comparison `v > 0` for a possibly-undefined value
(`undefined > 0` and `NaN > 0` are false); a decimal `m * 10 ^ e` is
positive iff its mantissa `m` is. -/
def jsGtZero : Option JVal → Bool
  | none => false
  | some v =>
      match jsToNum v with
      | none => false
      | some n => decide (0 < n.num)

/-- Strict equality `v === t` of a possibly-undefined value with a
string literal. -/
def isStr : Option JVal → String → Bool
  | some (.jstr s), t => s == t
  | _, _ => false

/-! ## Line Demuxer

JavaScript `dataBuffer.split('\n')` followed by `lines.pop()`: every
chunk is appended to the carry-over, the result is split on newline, all
fragments but the last are the complete lines, the last fragment is the
new carry-over. -/

/-- Split on newline, JavaScript `split('\n')` semantics: n separators
yield n+1 fragments, so the result is never empty. -/
def splitNl : List Char → List (List Char)
  | [] => [[]]
  | c :: rest =>
      if c = '\n' then [] :: splitNl rest
      else
        match splitNl rest with
        | [] => [[c]]
        | l :: ls => (c :: l) :: ls

/-- One `data` callback of the demuxer: complete lines and new carry-over. -/
def feed (buf chunk : List Char) : List (List Char) × List Char :=
  let pieces := splitNl (buf ++ chunk)
  (pieces.dropLast, pieces.getLastD [])

/-- Demuxer run over a whole sequence of chunks. -/
def feedMany (buf : List Char) : List (List Char) → List (List Char) × List Char
  | [] => ([], buf)
  | c :: cs =>
      let p1 := feed buf c
      let p2 := feedMany p1.2 cs
      (p1.1 ++ p2.1, p2.2)

/-! ## Configuration and the spawned argument list -/

/-- Configuration snapshot of the node; `none` models an absent field. -/
structure Config where
  timeout : Option Int
  method : Option String
  confidence : Option Nat
  camera : Option String
  visualFeedback : Bool
  detectEmotion : Bool

/-- JavaScript `s || d` on an optional string (empty string is falsy). -/
def jsOrStr : Option String → String → String
  | none, d => d
  | some s, d => if s == "" then d else s

/-- JavaScript `config.confidence || 50` (zero and absent are falsy). -/
def effConfidence : Option Nat → Nat
  | none => 50
  | some 0 => 50
  | some n => n

/-- The numeric value passed after `--confidence`:
`(config.confidence || 50) / 100`. -/
def confArg (c : Option Nat) : ℚ := (effConfidence c : ℚ) / 100

/-- One spawn argument: the source array mixes strings and a number. -/
inductive Arg where
  | str (s : String)
  | num (q : ℚ)
deriving DecidableEq

/-- Path of the worker script (joined from the node directory). -/
def scriptArg : String := "detect_human.py"

/-- The argument list built by the input handler. -/
def args (cfg : Config) : List Arg :=
  [.str scriptArg,
   .str "--method", .str (jsOrStr cfg.method "mobilenet"),
   .str "--confidence", .num (confArg cfg.confidence),
   .str "--camera", .str (jsOrStr cfg.camera "0")]
  ++ (if !cfg.visualFeedback then [.str "--no-display"] else [])
  ++ (if cfg.detectEmotion then [.str "--emotion"] else [])

/-! ## Node state, observable actions, and event handlers

Requests are identified by the generation counter `nextGen`: the `g`-th
`input` event creates Request `g`.  `waitingNode = some g` models the
JavaScript `waitingNode = msg` of that request (the slot), `none` models
`waitingNode = null`.  Spawned processes and armed timers get fresh
identifiers; `buffers` keeps each spawned process's closure-local
`dataBuffer` (the closure outlives a kill, so entries are never removed).
-/

/-- Status indicator values passed to `node.status`. -/
inductive NodeStatus where
  | idle
  | detecting
  | ready
  | error
  | detectedCount (v : Option JVal)

/-- Payload sent on channel 1: `{count, humans, timestamp}` read off the
decoded message (absent fields become `undefined`). -/
structure SuccessPayload where
  count : Option JVal
  humans : Option JVal
  timestamp : Option JVal

/-- Observable side effects, in program order.  `send1`/`send2` are the
two output channels; `fail` is `node.error`, ghost-tagged with the
request occupying the slot at that moment. -/
inductive Act where
  | spawnP (pid : Nat) (argv : List Arg)
  | killP (pid : Nat)
  | armT (tid : Nat) (seconds : Int)
  | disarmT (tid : Nat)
  | send1 (g : Nat) (p : SuccessPayload)
  | send2 (g : Nat)
  | fail (g : Option Nat) (reason : JVal)
  | warnA (msg : String)
  | logA (line : String)
  | statusA (st : NodeStatus)

/-- Mutable state of the node closure. -/
structure S where
  pythonProcess : Option Nat
  waitingNode : Option Nat
  timeoutId : Option Nat
  buffers : List (Nat × List Char)
  nextPid : Nat
  nextGen : Nat
  nextTid : Nat

/-- Initial state: no process, no request, no timer. -/
def S0 : S := ⟨none, none, none, [], 0, 0, 0⟩

def getBuf : List (Nat × List Char) → Nat → Option (List Char)
  | [], _ => none
  | (p, b) :: rest, pid => if p == pid then some b else getBuf rest pid

def setBuf : List (Nat × List Char) → Nat → List Char → List (Nat × List Char)
  | [], _, _ => []
  | (p, b) :: rest, pid, nb =>
      if p == pid then (p, nb) :: rest else (p, b) :: setBuf rest pid nb

/-- The `cleanup` function: kill the current process if any, clear the
timer if any, clear the request slot, reset the status indicator. -/
def cleanup (s : S) : S × List Act :=
  let ka : List Act :=
    match s.pythonProcess with
    | some pid => [.killP pid]
    | none => []
  let da : List Act :=
    match s.timeoutId with
    | some tid => [.disarmT tid]
    | none => []
  ({s with pythonProcess := none, timeoutId := none, waitingNode := none},
   ka ++ da ++ [.statusA .idle])

/-- The `timeoutHandler`: emit the fixed timeout payload on channel 2,
but only when a request is still waiting; then clean up. -/
def timeoutHandler (s : S) : S × List Act :=
  match s.waitingNode with
  | some g =>
      let c := cleanup s
      (c.1, .send2 g :: c.2)
  | none => (s, [])

/-- The conditional `setTimeout`: JavaScript
`if (config.timeout && config.timeout > 0)` arms a fresh timer. -/
def armTimer (s : S) (t : Option Int) : S × List Act :=
  match t with
  | some v =>
      if v ≠ 0 ∧ 0 < v then
        ({s with timeoutId := some s.nextTid, nextTid := s.nextTid + 1},
         [.armT s.nextTid v])
      else (s, [])
  | none => (s, [])

/-- The `input` handler: clean up any existing process, occupy the slot,
arm the timeout when configured positive, spawn the worker. -/
def onInput (s : S) (cfg : Config) : S × List Act :=
  let c := cleanup s
  let g := c.1.nextGen
  let s2 := {c.1 with waitingNode := some g, nextGen := g + 1}
  let t := armTimer s2 cfg.timeout
  let pid := t.1.nextPid
  let s4 := {t.1 with pythonProcess := some pid, nextPid := pid + 1,
                      buffers := (pid, []) :: t.1.buffers}
  (s4, c.2 ++ [.statusA .detecting] ++ t.2 ++ [.spawnP pid (args cfg)])

/-- Body of the ready/detected checks of the stdout line handler. -/
def nonError (s : S) (j : JVal) : S × List Act :=
  if isStr (getField j "status") "ready" then
    (s, [.statusA .ready])
  else if isStr (getField j "status") "detected" && jsGtZero (getField j "count") then
    match s.waitingNode with
    | some g =>
        let p : SuccessPayload :=
          ⟨getField j "count", getField j "humans", getField j "timestamp"⟩
        let c := cleanup s
        (c.1, .send1 g p :: .statusA (.detectedCount (getField j "count")) :: c.2)
    | none => (s, [])
  else (s, [])

/-- Dispatch on a decoded line: a truthy `error` field is terminal. -/
def handleJson (s : S) (j : JVal) : S × List Act :=
  match getField j "error" with
  | some e =>
      if truthy e then
        let c := cleanup s
        (c.1, .fail s.waitingNode e :: .statusA .error :: c.2)
      else nonError s j
  | none => nonError s j

/-- One complete line: skip when blank, log when not JSON (or when the
parse yields `null`, whose property access throws into the catch), else
dispatch on the decoded message. -/
def onLine (s : S) (line : List Char) : S × List Act :=
  if (jsTrim line).isEmpty then (s, [])
  else
    match jsonParse line with
    | none => (s, [.logA (String.mk line)])
    | some .jnull => (s, [.logA (String.mk line)])
    | some j => handleJson s j

/-- The `forEach` over complete lines. -/
def runLines (s : S) : List (List Char) → S × List Act
  | [] => (s, [])
  | l :: rest =>
      let p1 := onLine s l
      let p2 := runLines p1.1 rest
      (p2.1, p1.2 ++ p2.2)

/-- A `data` callback of a spawned process's stdout: demux through that
closure's own buffer, then process the complete lines. -/
def onStdout (s : S) (pid : Nat) (chunk : List Char) : S × List Act :=
  match getBuf s.buffers pid with
  | none => (s, [])
  | some buf =>
      let p := feed buf chunk
      runLines {s with buffers := setBuf s.buffers pid p.2} p.1

/-- A `close` callback: report a non-zero, non-null exit code, then
clean up unconditionally (the closure does not check which process). -/
def onClose (s : S) (pid : Nat) (code : Option Int) : S × List Act :=
  match getBuf s.buffers pid with
  | none => (s, [])
  | some _ =>
      let ea : List Act :=
        if code ≠ some 0 ∧ code ≠ none then
          [.fail s.waitingNode
             (.jstr ("Python process exited with code " ++
                (match code with | some c => toString c | none => "null"))),
           .statusA .error]
        else []
      let c := cleanup s
      (c.1, ea ++ c.2)

/-- An `error` callback of a spawned process (start failure). -/
def onProcErr (s : S) (pid : Nat) (emsg : String) : S × List Act :=
  match getBuf s.buffers pid with
  | none => (s, [])
  | some _ =>
      let c := cleanup s
      (c.1, .fail s.waitingNode (.jstr ("Failed to start Python process: " ++ emsg))
              :: .statusA .error :: c.2)

/-- A `data` callback on stderr: a warning, never a resolution. -/
def onStderr (s : S) (pid : Nat) (chunk : String) : S × List Act :=
  match getBuf s.buffers pid with
  | none => (s, [])
  | some _ => (s, [.warnA ("Python error: " ++ chunk)])

/-- A timer callback.  Node.js never runs a cleared timeout, so the fire
is a no-op unless `tid` is the currently armed timer. -/
def onTimer (s : S) (tid : Nat) : S × List Act :=
  if s.timeoutId = some tid then timeoutHandler s else (s, [])

/-- Serialized events of the Node.js event loop.  `stdoutData`,
`stderrData`, `closeEvt` and `errorEvt` name the process whose closure
receives the callback; a synchronous `spawn` exception is not modelled
(start failures arrive through `errorEvt`). -/
inductive Event where
  | input (cfg : Config)
  | stdoutData (pid : Nat) (chunk : List Char)
  | stderrData (pid : Nat) (chunk : String)
  | closeEvt (pid : Nat) (code : Option Int)
  | errorEvt (pid : Nat) (emsg : String)
  | timerFire (tid : Nat)
  | nodeClose
  | resetState

/-- One event dispatch. -/
def step (s : S) : Event → S × List Act
  | .input cfg => onInput s cfg
  | .stdoutData pid chunk => onStdout s pid chunk
  | .stderrData pid chunk => onStderr s pid chunk
  | .closeEvt pid code => onClose s pid code
  | .errorEvt pid emsg => onProcErr s pid emsg
  | .timerFire tid => onTimer s tid
  | .nodeClose => cleanup s
  | .resetState => cleanup s

/-- Run of a whole event sequence, accumulating actions in order. -/
def run (s : S) : List Event → S × List Act
  | [] => (s, [])
  | e :: es =>
      let p1 := step s e
      let p2 := run p1.1 es
      (p2.1, p1.2 ++ p2.2)

/-- Actions observed on an event sequence from the initial state. -/
def trace (es : List Event) : List Act := (run S0 es).2

/-! ## Counting emissions and failure reports per Request -/

/-- Channel emission (either channel) belonging to Request `g`. -/
def isEmitFor (g : Nat) : Act → Bool
  | .send1 g' _ => g' == g
  | .send2 g' => g' == g
  | _ => false

/-- Failure report (`node.error`) charged to Request `g`: one issued
while Request `g` occupied the slot. -/
def isFailFor (g : Nat) : Act → Bool
  | .fail (some g') _ => g' == g
  | _ => false

/-- Outcome act of Request `g`: an emission or a failure report. -/
def isOutFor (g : Nat) (a : Act) : Bool := isEmitFor g a || isFailFor g a

def emitCount (g : Nat) (l : List Act) : Nat := l.countP (isEmitFor g)
def failCount (g : Nat) (l : List Act) : Nat := l.countP (isFailFor g)
def outCount (g : Nat) (l : List Act) : Nat := l.countP (isOutFor g)

@[simp] lemma isOutFor_spawnP : isOutFor g (.spawnP p a) = false := rfl
@[simp] lemma isOutFor_killP : isOutFor g (.killP p) = false := rfl
@[simp] lemma isOutFor_armT : isOutFor g (.armT t v) = false := rfl
@[simp] lemma isOutFor_disarmT : isOutFor g (.disarmT t) = false := rfl
@[simp] lemma isOutFor_warnA : isOutFor g (.warnA m) = false := rfl
@[simp] lemma isOutFor_logA : isOutFor g (.logA m) = false := rfl
@[simp] lemma isOutFor_statusA : isOutFor g (.statusA st) = false := rfl
@[simp] lemma isOutFor_send1 : isOutFor g (.send1 g' p) = (g' == g) := by
  simp [isOutFor, isEmitFor, isFailFor]
@[simp] lemma isOutFor_send2 : isOutFor g (.send2 g') = (g' == g) := by
  simp [isOutFor, isEmitFor, isFailFor]
@[simp] lemma isOutFor_fail_none : isOutFor g (.fail none r) = false := rfl
@[simp] lemma isOutFor_fail_some : isOutFor g (.fail (some g') r) = (g' == g) := by
  simp [isOutFor, isEmitFor, isFailFor]

lemma outCount_append (g : Nat) (A B : List Act) :
    outCount g (A ++ B) = outCount g A + outCount g B :=
  List.countP_append _ _ _

lemma outCount_nil (g : Nat) : outCount g [] = 0 := rfl

lemma outCount_cons (g : Nat) (a : Act) (l : List Act) :
    outCount g (a :: l) = outCount g l + if isOutFor g a then 1 else 0 :=
  List.countP_cons _ _ _

lemma outCount_split (g : Nat) (l : List Act) :
    outCount g l = emitCount g l + failCount g l := by
  induction l with
  | nil => rfl
  | cons a t ih =>
      simp only [outCount, emitCount, failCount, List.countP_cons] at *
      cases a with
      | fail o r =>
          cases o with
          | none => simp [isOutFor, isEmitFor, isFailFor, ih]
          | some g' => simp [isOutFor, isEmitFor, isFailFor, ih]; omega
      | send1 g' p => simp [isOutFor, isEmitFor, isFailFor, ih] ; omega
      | send2 g' => simp [isOutFor, isEmitFor, isFailFor, ih] ; omega
      | _ => simp [isOutFor, isEmitFor, isFailFor, ih]

/-- No outcome act (for any Request) in this action list. -/
def NoOut (l : List Act) : Prop := ∀ g, outCount g l = 0

lemma noOut_nil : NoOut [] := fun _ => rfl

lemma noOut_append (hA : NoOut A) (hB : NoOut B) : NoOut (A ++ B) := by
  intro g; rw [outCount_append, hA g, hB g]

lemma cleanup_fst (s : S) :
    (cleanup s).1 = {s with pythonProcess := none, timeoutId := none,
                            waitingNode := none} := rfl

lemma cleanup_nextGen (s : S) : (cleanup s).1.nextGen = s.nextGen := rfl

lemma cleanup_waiting (s : S) : (cleanup s).1.waitingNode = none := rfl

lemma outCount_cleanup (g : Nat) (s : S) : outCount g (cleanup s).2 = 0 := by
  simp only [cleanup]
  cases s.pythonProcess <;> cases s.timeoutId <;>
    simp [outCount, List.countP_cons]

lemma noOut_cleanup (s : S) : NoOut (cleanup s).2 := fun g => outCount_cleanup g s

lemma outCount_armTimer (g : Nat) (s : S) (t : Option Int) :
    outCount g (armTimer s t).2 = 0 := by
  cases t with
  | none => rfl
  | some v =>
      simp only [armTimer]
      split <;> simp [outCount, List.countP_cons]

lemma armTimer_waiting (s : S) (t : Option Int) :
    (armTimer s t).1.waitingNode = s.waitingNode := by
  cases t with
  | none => rfl
  | some v =>
      simp only [armTimer]
      split <;> rfl

lemma armTimer_nextGen (s : S) (t : Option Int) :
    (armTimer s t).1.nextGen = s.nextGen := by
  cases t with
  | none => rfl
  | some v =>
      simp only [armTimer]
      split <;> rfl

/-! ## Per-event characterization

`LineSpec` summarizes what any single stdout-line handler (and any
non-`input` handler) can do: either it produces no outcome act and
preserves (or clears) the request slot, or it resolves the request
currently in the slot with at most one outcome act charged to it and
clears the slot.  `StepSpec` adds the `input` alternative: a fresh
request occupies the slot and no outcome act is produced. -/

def LineSpec (s s' : S) (B : List Act) : Prop :=
  (s'.nextGen = s.nextGen ∧ (s'.waitingNode = s.waitingNode ∨ s'.waitingNode = none)
     ∧ NoOut B)
  ∨ (∃ g0, s.waitingNode = some g0 ∧ s'.waitingNode = none ∧ s'.nextGen = s.nextGen
     ∧ outCount g0 B ≤ 1 ∧ ∀ g, g ≠ g0 → outCount g B = 0)

def StepSpec (s s' : S) (B : List Act) : Prop :=
  LineSpec s s' B
  ∨ (s'.nextGen = s.nextGen + 1 ∧ s'.waitingNode = some s.nextGen ∧ NoOut B)

lemma lineSpec_id (s : S) : LineSpec s s [] :=
  Or.inl ⟨rfl, Or.inl rfl, noOut_nil⟩

lemma lineSpec_noOut (hG : s'.nextGen = s.nextGen)
    (hW : s'.waitingNode = s.waitingNode ∨ s'.waitingNode = none)
    (hB : NoOut B) : LineSpec s s' B :=
  Or.inl ⟨hG, hW, hB⟩

/-- A terminal handler body of the shape
`tag :: extra :: (cleanup s).2` where `tag` is the only outcome act and
is charged to the slot occupant, resolves per `LineSpec`. -/
lemma lineSpec_terminal (s : S) (a b : Act)
    (ha : ∀ g, isOutFor g a = (s.waitingNode == some g))
    (hb : ∀ g, isOutFor g b = false) :
    LineSpec s (cleanup s).1 (a :: b :: (cleanup s).2) := by
  cases hw : s.waitingNode with
  | none =>
      refine Or.inl ⟨rfl, Or.inr rfl, ?_⟩
      intro g
      have := noOut_cleanup s g
      simp [outCount, List.countP_cons, ha g, hb g, hw] at *
      simpa [outCount] using this
  | some g0 =>
      refine Or.inr ⟨g0, hw, rfl, rfl, ?_, ?_⟩
      · have := noOut_cleanup s g0
        simp only [outCount, List.countP_cons] at *
        simp [ha g0, hb g0, hw, this]
      · intro g hne
        have := noOut_cleanup s g
        simp only [outCount, List.countP_cons] at *
        have hne' : (g0 == g) = false := by simpa using fun h => hne h.symm
        simp [ha g, hb g, hw, hne', this]

lemma lineSpec_nonError (s : S) (j : JVal) :
    LineSpec s (nonError s j).1 (nonError s j).2 := by
  unfold nonError
  split
  · exact lineSpec_noOut rfl (Or.inl rfl) (by
      intro g; simp [outCount, List.countP_cons])
  · split
    · cases hw : s.waitingNode with
      | none => simp only [hw]; exact lineSpec_id s
      | some g0 =>
          simp only [hw]
          have h := lineSpec_terminal s (.send1 g0 ⟨getField j "count",
              getField j "humans", getField j "timestamp"⟩)
            (.statusA (.detectedCount (getField j "count")))
            (fun g => by simp [hw]) (fun g => rfl)
          simpa [hw] using h
    · exact lineSpec_id s

lemma lineSpec_handleJson (s : S) (j : JVal) :
    LineSpec s (handleJson s j).1 (handleJson s j).2 := by
  unfold handleJson
  split
  · next e _ =>
      split
      · exact lineSpec_terminal s (.fail s.waitingNode e) (.statusA .error)
          (fun g => by cases hw : s.waitingNode <;> simp [hw]) (fun g => rfl)
      · exact lineSpec_nonError s j
  · exact lineSpec_nonError s j

lemma lineSpec_onLine (s : S) (line : List Char) :
    LineSpec s (onLine s line).1 (onLine s line).2 := by
  unfold onLine
  split
  · exact lineSpec_id s
  · split
    · exact lineSpec_noOut rfl (Or.inl rfl) (by
        intro g; simp [outCount, List.countP_cons])
    · exact lineSpec_noOut rfl (Or.inl rfl) (by
        intro g; simp [outCount, List.countP_cons])
    · exact lineSpec_handleJson s _

lemma lineSpec_comp (h1 : LineSpec s s' B) (h2 : LineSpec s' s'' C) :
    LineSpec s s'' (B ++ C) := by
  rcases h1 with ⟨hG1, hW1, hB⟩ | ⟨g0, hw0, hw0', hG1, hle, hoth⟩
  · rcases h2 with ⟨hG2, hW2, hC⟩ | ⟨g1, hw1, hw1', hG2, hle1, hoth1⟩
    · refine Or.inl ⟨hG2.trans hG1, ?_, noOut_append hB hC⟩
      rcases hW2 with h | h
      · rw [h]; exact hW1
      · exact Or.inr h
    · rcases hW1 with h | h
      · refine Or.inr ⟨g1, h ▸ hw1, hw1', hG2.trans hG1, ?_, ?_⟩
        · rw [outCount_append, hB g1]; simpa using hle1
        · intro g hg; rw [outCount_append, hB g, hoth1 g hg]
      · rw [h] at hw1; cases hw1
  · rcases h2 with ⟨hG2, hW2, hC⟩ | ⟨g1, hw1, hw1', hG2, hle1, hoth1⟩
    · refine Or.inr ⟨g0, hw0, ?_, hG2.trans hG1, ?_, ?_⟩
      · rcases hW2 with h | h
        · rw [h, hw0']
        · exact h
      · rw [outCount_append, hC g0]; simpa using hle
      · intro g hg; rw [outCount_append, hoth g hg, hC g]
    · rw [hw0'] at hw1; cases hw1

lemma lineSpec_transport (h : LineSpec sb s' B)
    (hW : sb.waitingNode = s.waitingNode) (hG : sb.nextGen = s.nextGen) :
    LineSpec s s' B := by
  rcases h with ⟨hG1, hW1, hB⟩ | ⟨g0, hw0, hw0', hG1, hle, hoth⟩
  · exact Or.inl ⟨hG1.trans hG, by rw [← hW]; exact hW1, hB⟩
  · exact Or.inr ⟨g0, hW ▸ hw0, hw0', hG1.trans hG, hle, hoth⟩

lemma lineSpec_runLines : ∀ (ls : List (List Char)) (s : S),
    LineSpec s (runLines s ls).1 (runLines s ls).2
  | [], s => lineSpec_id s
  | l :: rest, s => by
      simp only [runLines]
      exact lineSpec_comp (lineSpec_onLine s l)
        (lineSpec_runLines rest (onLine s l).1)

lemma noOut_single (a : Act) (h : ∀ g, isOutFor g a = false) : NoOut [a] := by
  intro g; simp [outCount, List.countP_cons, h g]

lemma lineSpec_onStdout (s : S) (pid : Nat) (chunk : List Char) :
    LineSpec s (onStdout s pid chunk).1 (onStdout s pid chunk).2 := by
  unfold onStdout
  split
  · exact lineSpec_id s
  · exact lineSpec_transport (lineSpec_runLines _ _) rfl rfl

lemma lineSpec_onClose (s : S) (pid : Nat) (code : Option Int) :
    LineSpec s (onClose s pid code).1 (onClose s pid code).2 := by
  unfold onClose
  split
  · exact lineSpec_id s
  · split
    · exact lineSpec_terminal s _ _
        (fun g => by cases hw : s.waitingNode <;> simp [hw]) (fun g => rfl)
    · exact lineSpec_noOut rfl (Or.inr rfl) (by simpa using noOut_cleanup s)

lemma lineSpec_onProcErr (s : S) (pid : Nat) (emsg : String) :
    LineSpec s (onProcErr s pid emsg).1 (onProcErr s pid emsg).2 := by
  unfold onProcErr
  split
  · exact lineSpec_id s
  · exact lineSpec_terminal s _ _
      (fun g => by cases hw : s.waitingNode <;> simp [hw]) (fun g => rfl)

lemma lineSpec_onStderr (s : S) (pid : Nat) (chunk : String) :
    LineSpec s (onStderr s pid chunk).1 (onStderr s pid chunk).2 := by
  unfold onStderr
  split
  · exact lineSpec_id s
  · exact lineSpec_noOut rfl (Or.inl rfl) (noOut_single _ (fun g => rfl))

lemma lineSpec_onTimer (s : S) (tid : Nat) :
    LineSpec s (onTimer s tid).1 (onTimer s tid).2 := by
  unfold onTimer
  split
  · unfold timeoutHandler
    cases hw : s.waitingNode with
    | none => exact lineSpec_id s
    | some g0 =>
        refine Or.inr ⟨g0, hw, rfl, rfl, ?_, ?_⟩
        · have := noOut_cleanup s g0
          simp only [outCount, List.countP_cons] at *
          simp [this]
        · intro g hg
          have := noOut_cleanup s g
          simp only [outCount, List.countP_cons] at *
          have hne' : (g0 == g) = false := by simpa using fun h => hg h.symm
          simp [hne', this]
  · exact lineSpec_id s

lemma lineSpec_cleanup (s : S) : LineSpec s (cleanup s).1 (cleanup s).2 :=
  lineSpec_noOut rfl (Or.inr rfl) (noOut_cleanup s)

lemma stepSpec_onInput (s : S) (cfg : Config) :
    StepSpec s (onInput s cfg).1 (onInput s cfg).2 := by
  refine Or.inr ⟨?_, ?_, ?_⟩
  · show (onInput s cfg).1.nextGen = s.nextGen + 1
    simp [onInput, armTimer_nextGen, cleanup_nextGen]
  · show (onInput s cfg).1.waitingNode = some s.nextGen
    simp [onInput, armTimer_waiting, cleanup_nextGen]
  · intro g
    simp [onInput, outCount_append, outCount_cons, outCount_cleanup,
          outCount_armTimer, outCount_nil]

lemma stepSpec_step (s : S) (e : Event) :
    StepSpec s (step s e).1 (step s e).2 := by
  cases e with
  | input cfg => exact stepSpec_onInput s cfg
  | stdoutData pid chunk => exact Or.inl (lineSpec_onStdout s pid chunk)
  | stderrData pid chunk => exact Or.inl (lineSpec_onStderr s pid chunk)
  | closeEvt pid code => exact Or.inl (lineSpec_onClose s pid code)
  | errorEvt pid emsg => exact Or.inl (lineSpec_onProcErr s pid emsg)
  | timerFire tid => exact Or.inl (lineSpec_onTimer s tid)
  | nodeClose => exact Or.inl (lineSpec_cleanup s)
  | resetState => exact Or.inl (lineSpec_cleanup s)

/-! ## Trace invariant: at most one outcome per Request -/

/-- The resolution invariant: the Request in the slot has no outcome
yet, Requests not yet created have no outcome, and no Request ever
accumulates more than one outcome act. -/
def Inv (s : S) (A : List Act) : Prop :=
  (∀ g, s.waitingNode = some g → g < s.nextGen ∧ outCount g A = 0)
  ∧ (∀ g, s.nextGen ≤ g → outCount g A = 0)
  ∧ (∀ g, outCount g A ≤ 1)

lemma inv_step (h : Inv s A) (hs : StepSpec s s' B) : Inv s' (A ++ B) := by
  obtain ⟨h1, h2, h3⟩ := h
  rcases hs with (⟨hG, hW, hB⟩ | ⟨g0, hw0, hw0', hG, hle, hoth⟩) | ⟨hG, hW, hB⟩
  · refine ⟨?_, ?_, ?_⟩
    · intro g hg
      rcases hW with hW | hW
      · rw [hW] at hg
        exact ⟨hG ▸ (h1 g hg).1, by rw [outCount_append, (h1 g hg).2, hB g]⟩
      · rw [hW] at hg; cases hg
    · intro g hg
      rw [hG] at hg
      rw [outCount_append, h2 g hg, hB g]
    · intro g
      rw [outCount_append, hB g]
      simpa using h3 g
  · refine ⟨?_, ?_, ?_⟩
    · intro g hg; rw [hw0'] at hg; cases hg
    · intro g hg
      rw [hG] at hg
      have hne : g ≠ g0 := by
        intro he; subst he
        exact absurd (h1 g hw0).1 (by omega)
      rw [outCount_append, h2 g hg, hoth g hne]
    · intro g
      by_cases he : g = g0
      · subst he
        rw [outCount_append, (h1 g hw0).2]
        simpa using hle
      · rw [outCount_append, hoth g he]
        simpa using h3 g
  · refine ⟨?_, ?_, ?_⟩
    · intro g hg
      rw [hW] at hg
      injection hg with hg; subst hg
      exact ⟨by omega, by rw [outCount_append, h2 _ le_rfl, hB _]⟩
    · intro g hg
      rw [hG] at hg
      rw [outCount_append, h2 g (by omega), hB g]
    · intro g
      rw [outCount_append, hB g]
      simpa using h3 g

lemma inv_run (h : Inv s A) : ∀ es, Inv (run s es).1 (A ++ (run s es).2) := by
  intro es
  induction es generalizing s A with
  | nil => simpa [run] using h
  | cons e es ih =>
      simp only [run]
      have h1 := inv_step h (stepSpec_step s e)
      have h2 := ih h1
      simpa [List.append_assoc] using h2

lemma inv_S0 : Inv S0 [] := by
  refine ⟨fun g hg => ?_, fun g _ => rfl, fun g => ?_⟩
  · simp [S0] at hg
  · simp [outCount]

lemma inv_trace (es : List Event) : Inv (run S0 es).1 (trace es) := by
  simpa [trace] using inv_run inv_S0 es

/-! ## Retired Requests never receive an outcome -/

/-- Request `g` exists but no longer occupies the slot. -/
def Retired (s : S) (g : Nat) : Prop :=
  s.waitingNode ≠ some g ∧ g < s.nextGen

lemma retired_step (h : Retired s g) (hs : StepSpec s s' B) :
    Retired s' g ∧ outCount g B = 0 := by
  obtain ⟨hw, hlt⟩ := h
  rcases hs with (⟨hG, hW, hB⟩ | ⟨g0, hw0, hw0', hG, hle, hoth⟩) | ⟨hG, hW, hB⟩
  · refine ⟨⟨?_, hG ▸ hlt⟩, hB g⟩
    rcases hW with hWe | hWe
    · rw [hWe]; exact hw
    · rw [hWe]; intro hc; cases hc
  · have hne : g ≠ g0 := fun he => hw (he ▸ hw0)
    exact ⟨⟨(by rw [hw0']; intro hc; cases hc), hG ▸ hlt⟩, hoth g hne⟩
  · refine ⟨⟨?_, by omega⟩, hB g⟩
    rw [hW]
    intro hc
    injection hc with hc
    omega

/-! ## Demuxer lemmas: chunk-by-chunk feeding equals feeding the
concatenation -/

lemma splitNl_cons_nl (rest : List Char) :
    splitNl ('\n' :: rest) = [] :: splitNl rest := by
  simp [splitNl]

lemma splitNl_cons_other {c : Char} (rest : List Char) (hc : c ≠ '\n')
    {l : List Char} {ls : List (List Char)} (h : splitNl rest = l :: ls) :
    splitNl (c :: rest) = (c :: l) :: ls := by
  simp [splitNl, hc, h]

lemma splitNl_ne_nil : ∀ l : List Char, splitNl l ≠ []
  | [] => by simp [splitNl]
  | c :: rest => by
      by_cases hc : c = '\n'
      · subst hc
        rw [splitNl_cons_nl]
        simp
      · cases hsr : splitNl rest with
        | nil => exact absurd hsr (splitNl_ne_nil rest)
        | cons l ls =>
            rw [splitNl_cons_other rest hc hsr]
            simp

/-- Prepend a fragment to the head of a nonempty split. -/
def glue (l : List Char) : List (List Char) → List (List Char)
  | [] => [l]
  | h :: t => (l ++ h) :: t

lemma glue_ne_nil (l : List Char) (ps : List (List Char)) : glue l ps ≠ [] := by
  cases ps <;> simp [glue]

lemma dropLast_cons_ne_nil {α : Type} (x : α) {l : List α} (h : l ≠ []) :
    (x :: l).dropLast = x :: l.dropLast := by
  cases l with
  | nil => exact absurd rfl h
  | cons a t => rfl

lemma getLastD_irrel {α : Type} (d d' : α) : ∀ {l : List α}, l ≠ [] →
    l.getLastD d = l.getLastD d'
  | [], h => absurd rfl h
  | b :: t, _ => by rw [List.getLastD_cons, List.getLastD_cons]

lemma getLastD_cons_ne_nil {α : Type} (x d d' : α) {l : List α} (h : l ≠ []) :
    (x :: l).getLastD d = l.getLastD d' := by
  rw [List.getLastD_cons]
  exact getLastD_irrel x d' h

lemma dropLast_append_ne_nil {α : Type} (A : List α) {B : List α} (h : B ≠ []) :
    (A ++ B).dropLast = A ++ B.dropLast := by
  induction A with
  | nil => rfl
  | cons a A ih =>
      have hAB : A ++ B ≠ [] := by
        intro hc
        exact h (List.append_eq_nil.mp hc).2
      rw [List.cons_append, dropLast_cons_ne_nil a hAB, ih, List.cons_append]

lemma getLastD_append_ne_nil {α : Type} (A : List α) {B : List α} (d d' : α)
    (h : B ≠ []) : (A ++ B).getLastD d = B.getLastD d' := by
  induction A with
  | nil => exact getLastD_irrel d d' h
  | cons a A ih =>
      have hAB : A ++ B ≠ [] := by
        intro hc
        exact h (List.append_eq_nil.mp hc).2
      rw [List.cons_append, getLastD_cons_ne_nil a d d hAB, ih]

lemma splitNl_append : ∀ a b : List Char,
    splitNl (a ++ b) =
      (splitNl a).dropLast ++ glue ((splitNl a).getLastD []) (splitNl b)
  | [], b => by
      cases hsb : splitNl b with
      | nil => exact absurd hsb (splitNl_ne_nil b)
      | cons h t => simp [splitNl, glue, hsb]
  | c :: a', b => by
      have ih := splitNl_append a' b
      have hne := splitNl_ne_nil a'
      by_cases hc : c = '\n'
      · subst hc
        rw [List.cons_append, splitNl_cons_nl (a' ++ b), splitNl_cons_nl a',
            dropLast_cons_ne_nil _ hne,
            getLastD_cons_ne_nil _ _ ([] : List Char) hne, ih, List.cons_append]
      · cases hsa : splitNl a' with
        | nil => exact absurd hsa hne
        | cons h' t' =>
            rw [hsa] at ih
            cases t' with
            | nil =>
                cases hsb : splitNl b with
                | nil => exact absurd hsb (splitNl_ne_nil b)
                | cons hb tb =>
                    rw [hsb] at ih
                    simp only [glue, List.dropLast_single, List.nil_append,
                               List.getLastD_cons, List.getLastD_nil] at ih
                    rw [List.cons_append,
                        splitNl_cons_other (a' ++ b) hc ih,
                        splitNl_cons_other a' hc hsa]
                    simp [glue, List.getLastD_cons]
            | cons h2 t2 =>
                have h2ne : (h2 :: t2 : List (List Char)) ≠ [] := by simp
                rw [dropLast_cons_ne_nil _ h2ne,
                    getLastD_cons_ne_nil _ _ ([] : List Char) h2ne,
                    List.cons_append] at ih
                rw [List.cons_append,
                    splitNl_cons_other (a' ++ b) hc ih,
                    splitNl_cons_other a' hc hsa,
                    dropLast_cons_ne_nil _ h2ne,
                    getLastD_cons_ne_nil _ _ ([] : List Char) h2ne,
                    List.cons_append]

lemma getLastD_mem {α : Type} : ∀ (l : List α) (d : α), l ≠ [] → l.getLastD d ∈ l
  | [], _, h => absurd rfl h
  | [x], d, _ => by simp [List.getLastD_cons]
  | x :: y :: t, d, _ => by
      rw [List.getLastD_cons]
      exact List.mem_cons_of_mem x (getLastD_mem (y :: t) x (by simp))

lemma splitNl_no_nl : ∀ (l : List Char) (p : List Char), p ∈ splitNl l → '\n' ∉ p
  | [], p, hp => by
      simp [splitNl] at hp
      simp [hp]
  | c :: rest, p, hp => by
      by_cases hc : c = '\n'
      · subst hc
        rw [splitNl_cons_nl] at hp
        rcases List.mem_cons.mp hp with h | h
        · simp [h]
        · exact splitNl_no_nl rest p h
      · cases hsr : splitNl rest with
        | nil => exact absurd hsr (splitNl_ne_nil rest)
        | cons l ls =>
            rw [splitNl_cons_other rest hc hsr] at hp
            rcases List.mem_cons.mp hp with h | h
            · subst h
              intro hmem
              rcases List.mem_cons.mp hmem with h | h
              · exact hc h.symm
              · exact splitNl_no_nl rest l (hsr ▸ List.mem_cons_self l ls) h
            · exact splitNl_no_nl rest p (hsr ▸ List.mem_cons_of_mem l h)

lemma carry_no_nl (l : List Char) : '\n' ∉ (splitNl l).getLastD [] :=
  splitNl_no_nl l _ (getLastD_mem _ _ (splitNl_ne_nil l))

lemma splitNl_of_no_nl : ∀ l : List Char, '\n' ∉ l → splitNl l = [l]
  | [], _ => rfl
  | c :: rest, h => by
      have hc : c ≠ '\n' := fun he => h (he ▸ List.mem_cons_self c rest)
      have hr : '\n' ∉ rest := fun hm => h (List.mem_cons_of_mem c hm)
      rw [splitNl_cons_other rest hc (splitNl_of_no_nl rest hr)]

lemma feed_split (buf chunk : List Char) :
    feed buf chunk = ((splitNl (buf ++ chunk)).dropLast,
                      (splitNl (buf ++ chunk)).getLastD []) := rfl

lemma feed_feed (buf c1 c2 : List Char) :
    feed buf (c1 ++ c2) =
      ((feed buf c1).1 ++ (feed (feed buf c1).2 c2).1,
       (feed (feed buf c1).2 c2).2) := by
  have hcarry : '\n' ∉ (splitNl (buf ++ c1)).getLastD [] := carry_no_nl (buf ++ c1)
  have hsplit2 : splitNl ((splitNl (buf ++ c1)).getLastD [] ++ c2) =
      glue ((splitNl (buf ++ c1)).getLastD []) (splitNl c2) := by
    rw [splitNl_append, splitNl_of_no_nl _ hcarry]
    rfl
  have hg : glue ((splitNl (buf ++ c1)).getLastD []) (splitNl c2) ≠ [] :=
    glue_ne_nil _ _
  have hmain : splitNl (buf ++ (c1 ++ c2)) =
      (splitNl (buf ++ c1)).dropLast ++
        glue ((splitNl (buf ++ c1)).getLastD []) (splitNl c2) := by
    rw [← List.append_assoc, splitNl_append (buf ++ c1) c2]
  rw [Prod.ext_iff]
  constructor
  · show (splitNl (buf ++ (c1 ++ c2))).dropLast =
      (splitNl (buf ++ c1)).dropLast ++
        (splitNl ((splitNl (buf ++ c1)).getLastD [] ++ c2)).dropLast
    rw [hmain, dropLast_append_ne_nil _ hg, hsplit2]
  · show (splitNl (buf ++ (c1 ++ c2))).getLastD [] =
      (splitNl ((splitNl (buf ++ c1)).getLastD [] ++ c2)).getLastD []
    rw [hmain, getLastD_append_ne_nil _ ([] : List Char) ([] : List Char) hg,
        hsplit2]

lemma feedMany_feed : ∀ (chunks : List (List Char)) (buf : List Char),
    '\n' ∉ buf → feedMany buf chunks = feed buf chunks.flatten
  | [], buf, h => by
      have h1 : splitNl (buf ++ ([] : List (List Char)).flatten) = [buf] := by
        rw [List.flatten_nil, List.append_nil, splitNl_of_no_nl buf h]
      show ([], buf) = ((splitNl (buf ++ ([] : List (List Char)).flatten)).dropLast,
        (splitNl (buf ++ ([] : List (List Char)).flatten)).getLastD [])
      rw [h1]
      rfl
  | c :: cs, buf, h => by
      have hcarry : '\n' ∉ (feed buf c).2 := carry_no_nl (buf ++ c)
      have ih := feedMany_feed cs (feed buf c).2 hcarry
      show ((feed buf c).1 ++ (feedMany (feed buf c).2 cs).1,
            (feedMany (feed buf c).2 cs).2) = feed buf (c :: cs).flatten
      rw [ih, List.flatten_cons, feed_feed buf c cs.flatten]

lemma retired_run (h : Retired s g) : ∀ es,
    Retired (run s es).1 g ∧ outCount g (run s es).2 = 0 := by
  intro es
  induction es generalizing s with
  | nil => exact ⟨h, rfl⟩
  | cons e es ih =>
      simp only [run]
      have h1 := retired_step h (stepSpec_step s e)
      have h2 := ih h1.1
      exact ⟨h2.1, by rw [outCount_append, h1.2, h2.2]⟩

/-! ## Concrete fixtures used by the claim theorems -/

/-- Configuration with every field absent and feedback off. -/
def cfgEx : Config := ⟨none, none, none, none, true, false⟩

/-- A complete `detected` protocol line with count 1. -/
def detectLineEx : List Char :=
  "\x7b\"status\":\"detected\",\"count\":1,\"humans\":[],\"timestamp\":\"t\"\x7d\n".toList

/-- The node state right after one trigger from the initial state:
worker 0 spawned, Request 0 in the slot, no timer. -/
def sEx : S := ⟨some 0, some 0, none, [(0, [])], 1, 1, 0⟩

def isKillOf (pid : Nat) : Act → Bool
  | .killP p => p == pid
  | _ => false

def isLogAct : Act → Bool
  | .logA _ => true
  | _ => false

def isReadyAct : Act → Bool
  | .statusA .ready => true
  | _ => false

/-- A `detected` message object with the given count, humans, timestamp. -/
def detJ (n : JNum) (hum ts : JVal) : JVal :=
  .jobj [("status", .jstr "detected"), ("count", .jnum n),
         ("humans", hum), ("timestamp", ts)]

lemma effConfidence_pos (c : Option Nat) : 0 < effConfidence c := by
  cases c with
  | none => simp [effConfidence]
  | some n =>
      cases n with
      | zero => simp [effConfidence]
      | succ m => simp [effConfidence]

lemma confArg_pos (c : Option Nat) : 0 < confArg c := by
  have h := effConfidence_pos c
  have h' : (0 : ℚ) < (effConfidence c : ℚ) := by exact_mod_cast h
  exact div_pos h' (by norm_num)

lemma emitCount_cleanup (g : Nat) (s : S) : emitCount g (cleanup s).2 = 0 := by
  simp only [cleanup]
  cases s.pythonProcess <;> cases s.timeoutId <;>
    simp [emitCount, List.countP_cons, isEmitFor]

lemma armTimer_armed (s : S) (t : Option Int) (h : s.timeoutId = none) :
    ((armTimer s t).1.timeoutId ≠ none ↔ ∃ v, t = some v ∧ 0 < v) := by
  cases t with
  | none => simp [armTimer, h]
  | some v =>
      simp only [armTimer]
      split
      · next hv =>
          simp only [ne_eq, reduceCtorEq, not_false_iff, true_iff]
          exact ⟨v, rfl, hv.2⟩
      · next hv =>
          have hle : ¬ 0 < v := fun hlt => hv ⟨by omega, hlt⟩
          simp [h, hle]

/-- First chunk of the split `ready` line of the partial-line scenario. -/
def chunkA : List Char := "\x7b\"status\":\"re".toList

/-- Second chunk, completing the `ready` line with its newline. -/
def chunkB : List Char := "ady\"\x7d\n".toList

/-- Event sequence of the partial-line scenario. -/
def esC4 : List Event := [.input cfgEx, .stdoutData 0 chunkA, .stdoutData 0 chunkB]

/-! ## Claim theorems -/

/-- C4: the Line Demuxer appends each chunk to the carry-over, splits on
newline, yields all fragments but the last as complete lines in order,
and retains the last fragment as the new carry-over — so feeding any
sequence of chunks yields exactly the complete lines of the
concatenation, and feeding the split `ready` line across two chunks
yields exactly one decoded `ready` message and zero diagnostic lines. -/
theorem claim_C4 :
    (∀ buf chunk : List Char,
        feed buf chunk = ((splitNl (buf ++ chunk)).dropLast,
                          (splitNl (buf ++ chunk)).getLastD [])) ∧
    (∀ chunks : List (List Char),
        feedMany [] chunks = ((splitNl chunks.flatten).dropLast,
                              (splitNl chunks.flatten).getLastD [])) ∧
    (trace esC4).countP isReadyAct = 1 ∧ (trace esC4).countP isLogAct = 0 := by
  refine ⟨fun buf chunk => rfl, fun chunks => ?_, by decide, by decide⟩
  rw [feedMany_feed chunks [] (by simp)]
  rfl

/-- C9: teardown is idempotent — with no live worker and no armed timer
it only resets the status indicator, running it twice is the same as
running it once, it always leaves worker handle, timer handle and
request slot cleared, and it never emits an outcome on either channel. -/
theorem claim_C9 :
    (∀ s : S, s.pythonProcess = none → s.timeoutId = none →
        (cleanup s).2 = [.statusA .idle]) ∧
    (∀ s : S, cleanup (cleanup s).1 = ((cleanup s).1, [.statusA .idle])) ∧
    (∀ s : S, (cleanup s).1.pythonProcess = none ∧
        (cleanup s).1.timeoutId = none ∧ (cleanup s).1.waitingNode = none) ∧
    (∀ (s : S) (g : Nat), outCount g (cleanup s).2 = 0) := by
  refine ⟨?_, fun s => rfl, fun s => ⟨rfl, rfl, rfl⟩, fun s g => outCount_cleanup g s⟩
  intro s hp ht
  simp [cleanup, hp, ht]

/-- C10: the spawned argument list coerces a configured confidence of
`0` (or an absent one) to the default `0.5 = 50 / 100`, a confidence
argument of `0` is inexpressible, an absent method becomes `mobilenet`,
and an absent camera becomes `0`. -/
theorem claim_C10 :
    (∀ cfg : Config, cfg.confidence = none ∨ cfg.confidence = some 0 →
        (args cfg)[3]? = some (.str "--confidence") ∧
        (args cfg)[4]? = some (.num (1 / 2))) ∧
    (∀ (cfg : Config) (q : ℚ), Arg.num q ∈ args cfg → 0 < q) ∧
    (∀ cfg : Config, cfg.method = none →
        (args cfg)[2]? = some (.str "mobilenet")) ∧
    (∀ cfg : Config, cfg.camera = none →
        (args cfg)[6]? = some (.str "0")) := by
  refine ⟨?_, ?_, ?_, ?_⟩
  · intro cfg hc
    constructor
    · simp [args]
    · rcases hc with h | h <;>
        · rw [show (args cfg)[4]? = some (.num (confArg cfg.confidence)) by
            simp [args]]
          rw [h]
          norm_num [confArg, effConfidence]
  · intro cfg q hq
    unfold args at hq
    rcases List.mem_append.mp hq with h | h
    · rcases List.mem_append.mp h with h | h
      · simp at h
        rw [h]
        exact confArg_pos cfg.confidence
      · split at h <;> simp at h
    · split at h <;> simp at h
  · intro cfg h
    simp [args, h, jsOrStr]
  · intro cfg h
    simp [args, h, jsOrStr]

/-- C10 witness: a configuration with confidence 0, absent method and
camera gets `--confidence 0.5`, `mobilenet` and `0`. -/
theorem claim_C10_witness :
    ((⟨none, none, some 0, none, true, false⟩ : Config).confidence = none ∨
       (⟨none, none, some 0, none, true, false⟩ : Config).confidence = some 0) ∧
    (args ⟨none, none, some 0, none, true, false⟩)[3]? = some (.str "--confidence") ∧
    (args ⟨none, none, some 0, none, true, false⟩)[4]? = some (.num (1 / 2)) ∧
    (args ⟨none, none, some 0, none, true, false⟩)[2]? = some (.str "mobilenet") ∧
    (args ⟨none, none, some 0, none, true, false⟩)[6]? = some (.str "0") :=
  ⟨Or.inr rfl,
   (claim_C10.1 _ (Or.inr rfl)).1,
   (claim_C10.1 _ (Or.inr rfl)).2,
   claim_C10.2.2.1 _ rfl,
   claim_C10.2.2.2 _ rfl⟩

/-- C9 witness: teardown from the initial state (never-started worker,
no timer) only resets the status indicator. -/
theorem claim_C9_witness :
    S0.pythonProcess = none ∧ S0.timeoutId = none ∧
    (cleanup S0).2 = [.statusA .idle] :=
  ⟨rfl, rfl, claim_C9.1 S0 rfl rfl⟩

/-- State with worker 0, Request 0 waiting and timer 5 armed. -/
def sT : S := ⟨some 0, some 0, some 5, [(0, [])], 1, 1, 6⟩

/-- C5: the input handler arms a timer exactly when the configured
timeout is a positive number; an armed timer firing while a Request
waits sends the fixed payload on channel 2 followed only by teardown
acts (so channel 1 receives nothing, as teardown emits on no channel);
a fire of a cleared timer, or one with no waiting Request, does
nothing. -/
theorem claim_C5 :
    (∀ (s : S) (cfg : Config),
        ((onInput s cfg).1.timeoutId ≠ none ↔
          ∃ v, cfg.timeout = some v ∧ 0 < v)) ∧
    (∀ (s : S) (tid g : Nat), s.timeoutId = some tid → s.waitingNode = some g →
        onTimer s tid = ((cleanup s).1, .send2 g :: (cleanup s).2)) ∧
    (∀ (s : S) (tid : Nat), s.timeoutId ≠ some tid ∨ s.waitingNode = none →
        onTimer s tid = (s, [])) ∧
    (∀ (s : S) (g : Nat), emitCount g (cleanup s).2 = 0) := by
  refine ⟨?_, ?_, ?_, fun s g => emitCount_cleanup g s⟩
  · intro s cfg
    exact armTimer_armed _ cfg.timeout rfl
  · intro s tid g ht hw
    unfold onTimer
    rw [if_pos ht]
    simp [timeoutHandler, hw]
  · intro s tid h
    unfold onTimer
    rcases h with h | h
    · rw [if_neg h]
    · by_cases he : s.timeoutId = some tid
      · rw [if_pos he]
        simp [timeoutHandler, h]
      · rw [if_neg he]

/-- C5 witness: with timer 5 armed and Request 0 waiting, the fire sends
the timeout payload for Request 0 and tears down. -/
theorem claim_C5_witness :
    sT.timeoutId = some 5 ∧ sT.waitingNode = some 0 ∧
    onTimer sT 5 = ((cleanup sT).1, .send2 0 :: (cleanup sT).2) :=
  ⟨rfl, rfl, claim_C5.2.1 sT 5 0 rfl rfl⟩

/-- C6 counterexample: the line `{"error":""}` decodes to an `error`
message whose reason is the empty string, yet the handler does nothing —
no failure, no teardown, state unchanged — because the empty string is
falsy in the `if (result.error)` test; the claim asserts terminality for
every reason string including the empty one. -/
theorem claim_C6_counterexample :
    jsonParse ("\x7b\"error\":\"\"\x7d".toList) =
      some (.jobj [("error", .jstr "")]) ∧
    handleJson sEx (.jobj [("error", .jstr "")]) = (sEx, []) :=
  ⟨rfl, rfl⟩

/-- C6 amended: a decoded `error` message with a nonempty reason string
is terminal — the failure is reported for the Request in the slot, the
error status is set, teardown runs, and no channel emits (the acts are
exactly the failure report, the status, and the teardown acts); an
empty reason is ignored.  The scenario-D line decodes as expected. -/
theorem claim_C6_amended (s : S) (r : String) (hr : r ≠ "") :
    handleJson s (.jobj [("error", .jstr r)]) =
      ((cleanup s).1,
       .fail s.waitingNode (.jstr r) :: .statusA .error :: (cleanup s).2) ∧
    jsonParse ("\x7b\"error\":\"camera not found\"\x7d".toList) =
      some (.jobj [("error", .jstr "camera not found")]) := by
  refine ⟨?_, rfl⟩
  have h1 : getField (.jobj [("error", .jstr r)]) "error" = some (.jstr r) := rfl
  have h2 : truthy (.jstr r) = true := by simp [truthy, hr]
  simp [handleJson, h1, h2]

/-- C6 witness: the scenario-D reason resolves as Failure with that
reason, with teardown and no channel emission. -/
theorem claim_C6_witness :
    ("camera not found" : String) ≠ "" ∧
    handleJson sEx (.jobj [("error", .jstr "camera not found")]) =
      ((cleanup sEx).1,
       .fail sEx.waitingNode (.jstr "camera not found")
         :: .statusA .error :: (cleanup sEx).2) :=
  ⟨by decide, (claim_C6_amended sEx "camera not found" (by decide)).1⟩

/-- C7: a close callback with a non-zero (non-null) exit code reports
the failure for the Request in the slot, sets the error status and tears
down; a zero exit code only runs teardown; and no close callback ever
emits on either output channel. -/
theorem claim_C7 :
    (∀ (s : S) (p : Nat) (c : Int) (b : List Char),
        getBuf s.buffers p = some b → c ≠ 0 →
        onClose s p (some c) =
          ((cleanup s).1,
           .fail s.waitingNode
               (.jstr ("Python process exited with code " ++ toString c))
             :: .statusA .error :: (cleanup s).2)) ∧
    (∀ (s : S) (p : Nat) (b : List Char),
        getBuf s.buffers p = some b → s.waitingNode = none →
        onClose s p (some 0) = ((cleanup s).1, (cleanup s).2)) ∧
    (∀ (s : S) (p : Nat) (code : Option Int) (g : Nat),
        emitCount g (onClose s p code).2 = 0) := by
  refine ⟨?_, ?_, ?_⟩
  · intro s p c b hb hc
    unfold onClose
    simp only [hb]
    rw [if_pos ⟨by simpa using hc, by simp⟩]
    rfl
  · intro s p b hb _
    unfold onClose
    simp only [hb]
    rw [if_neg (fun hcon => hcon.1 rfl)]
    rfl
  · intro s p code g
    unfold onClose
    cases hb : getBuf s.buffers p with
    | none => rfl
    | some b =>
        simp only
        split
        · have hcl := emitCount_cleanup g s
          simp only [emitCount, List.countP_append, List.countP_cons] at hcl ⊢
          simp [isEmitFor, hcl]
        · have hcl := emitCount_cleanup g s
          simpa [emitCount] using hcl

/-- C7 witness: exit code 1 with worker 0 spawned and Request 0 waiting
resolves as Failure with the code in the reason; exit code 0 with the
slot empty is teardown only. -/
theorem claim_C7_witness :
    getBuf sEx.buffers 0 = some [] ∧ (1 : Int) ≠ 0 ∧
    onClose sEx 0 (some 1) =
      ((cleanup sEx).1,
       .fail sEx.waitingNode
           (.jstr ("Python process exited with code " ++ toString (1 : Int)))
         :: .statusA .error :: (cleanup sEx).2) ∧
    onClose (cleanup sEx).1 0 (some 0) =
      ((cleanup (cleanup sEx).1).1, (cleanup (cleanup sEx).1).2) :=
  ⟨rfl, by decide, claim_C7.1 sEx 0 1 [] rfl (by decide),
   claim_C7.2.1 (cleanup sEx).1 0 [] rfl rfl⟩

lemma toRat_pos (n : JNum) : 0 < n.toRat ↔ 0 < n.num := by
  unfold JNum.toRat
  have hp : (0 : ℚ) < (10 : ℚ) ^ n.exp10 := zpow_pos (by norm_num) _
  constructor
  · intro h
    by_contra hle
    push_neg at hle
    have hle' : (n.num : ℚ) ≤ 0 := by exact_mod_cast hle
    nlinarith
  · intro h
    have h' : (0 : ℚ) < (n.num : ℚ) := by exact_mod_cast h
    exact mul_pos h' hp

/-- C8: a decoded `detected` message whose count is not positive leaves
the state untouched and performs no act at all (in particular the
Request is never resolved), while a positive count with a waiting
Request emits the detection payload on channel 1 and tears down; the
zero-count protocol line decodes to the zero-count message. -/
theorem claim_C8 :
    jsonParse
        ("\x7b\"status\":\"detected\",\"count\":0,\"humans\":[],\"timestamp\":\"t\"\x7d".toList)
      = some (detJ ⟨0, 0⟩ (.jarr []) (.jstr "t")) ∧
    (∀ (s : S) (n : JNum) (hum ts : JVal), n.toRat ≤ 0 →
        handleJson s (detJ n hum ts) = (s, [])) ∧
    (∀ (s : S) (g : Nat) (n : JNum) (hum ts : JVal), 0 < n.toRat →
        s.waitingNode = some g →
        handleJson s (detJ n hum ts) =
          ((cleanup s).1,
           .send1 g ⟨some (.jnum n), some hum, some ts⟩
             :: .statusA (.detectedCount (some (.jnum n))) :: (cleanup s).2)) := by
  refine ⟨rfl, ?_, ?_⟩
  · intro s n hum ts hle
    have hnum : ¬ 0 < n.num := fun hpos =>
      absurd ((toRat_pos n).mpr hpos) (not_lt.mpr hle)
    have h1 : getField (detJ n hum ts) "error" = none := rfl
    have h2 : getField (detJ n hum ts) "status" = some (.jstr "detected") := rfl
    have h3 : getField (detJ n hum ts) "count" = some (.jnum n) := rfl
    have h4 : jsGtZero (some (.jnum n)) = false := by
      simp [jsGtZero, jsToNum, hnum]
    simp [handleJson, nonError, h1, h2, h3, h4, isStr]
  · intro s g n hum ts hpos hw
    have hnum : 0 < n.num := (toRat_pos n).mp hpos
    have h1 : getField (detJ n hum ts) "error" = none := rfl
    have h2 : getField (detJ n hum ts) "status" = some (.jstr "detected") := rfl
    have h3 : getField (detJ n hum ts) "count" = some (.jnum n) := rfl
    have h4 : jsGtZero (some (.jnum n)) = true := by
      simp [jsGtZero, jsToNum, hnum]
    have h5 : getField (detJ n hum ts) "humans" = some hum := rfl
    have h6 : getField (detJ n hum ts) "timestamp" = some ts := rfl
    simp [handleJson, nonError, h1, h2, h3, h4, h5, h6, isStr, hw]

/-- C8 witness: count 0 has no effect at the post-trigger state; count 1
resolves Request 0 as Success. -/
theorem claim_C8_witness :
    JNum.toRat ⟨0, 0⟩ ≤ 0 ∧
    handleJson sEx (detJ ⟨0, 0⟩ (.jarr []) (.jstr "t")) = (sEx, []) ∧
    0 < JNum.toRat ⟨1, 0⟩ ∧ sEx.waitingNode = some 0 ∧
    handleJson sEx (detJ ⟨1, 0⟩ (.jarr []) (.jstr "t")) =
      ((cleanup sEx).1,
       .send1 0 ⟨some (.jnum ⟨1, 0⟩), some (.jarr []), some (.jstr "t")⟩
         :: .statusA (.detectedCount (some (.jnum ⟨1, 0⟩)))
         :: (cleanup sEx).2) :=
  ⟨by norm_num [JNum.toRat],
   claim_C8.2.1 sEx ⟨0, 0⟩ (.jarr []) (.jstr "t") (by norm_num [JNum.toRat]),
   by norm_num [JNum.toRat], rfl,
   claim_C8.2.2 sEx 0 ⟨1, 0⟩ (.jarr []) (.jstr "t")
     (by norm_num [JNum.toRat]) rfl⟩

/-- C1: over every event sequence from the initial state, each Request
receives at most one channel emission (on either channel), and a Request
with a failure report receives no channel emission at all. -/
theorem claim_C1 (es : List Event) (g : Nat) :
    emitCount g (trace es) ≤ 1 ∧
    (1 ≤ failCount g (trace es) → emitCount g (trace es) = 0) := by
  have h := (inv_trace es).2.2 g
  have hs := outCount_split g (trace es)
  exact ⟨by omega, fun hf => by omega⟩

/-- A trigger followed by a stale terminal `error` line. -/
def esC1w : List Event :=
  [.input cfgEx, .stdoutData 0 ("\x7b\"error\":\"x\"\x7d\n".toList)]

/-- C1 witness: the error-line trace has a failure report for Request 0
and no emission for it. -/
theorem claim_C1_witness :
    1 ≤ failCount 0 (trace esC1w) ∧ emitCount 0 (trace esC1w) = 0 :=
  ⟨by decide, (claim_C1 esC1w 0).2 (by decide)⟩

/-- Supersession followed by a stale stdout line of the killed worker. -/
def esC2 : List Event := [.input cfgEx, .input cfgEx, .stdoutData 0 detectLineEx]

/-- C2: at the failing input — two triggers, then a buffered `detected`
line from worker 0, which belonged to the superseded Request 0 and was
killed by the second trigger — the stale line resolves the new Request 1
on channel 1.  The superseded Request 0 itself receives no outcome and
its worker is killed, but the code has no generation guard, so the
claim's stale-event suppression fails. -/
theorem claim_C2_staleEvent :
    emitCount 1 (trace esC2) = 1 ∧
    emitCount 1 (trace [.input cfgEx, .input cfgEx]) = 0 ∧
    emitCount 0 (trace esC2) = 0 ∧ failCount 0 (trace esC2) = 0 ∧
    failCount 1 (trace esC2) = 0 ∧
    (trace esC2).countP (isKillOf 0) = 1 := by decide

/-- Trigger with no timeout, then worker exit with code 0 before any
terminal message. -/
def esC3 : List Event := [.input cfgEx, .closeEvt 0 (some 0)]

/-- C3 counterexample: after a worker exit with code 0 and no terminal
message, Request 0 has received no outcome at all — no emission and no
failure report — and the request slot is empty, so it can never resolve;
the claim asserts exactly one Outcome per trigger. -/
theorem claim_C3_counterexample :
    outCount 0 (trace esC3) = 0 ∧
    (run S0 esC3).1.waitingNode = none ∧
    (run S0 esC3).1.nextGen = 1 := by decide

/-- C3 amended: every Request receives at most one Outcome (emission or
failure report); a close callback with exit code 0 produces no outcome
act at all; and a Request that no longer occupies the slot never
receives an outcome in any later events — so a worker exiting 0 before
any terminal message leaves its Request resolved by nothing, ever. -/
theorem claim_C3_amended :
    (∀ (es : List Event) (g : Nat), outCount g (trace es) ≤ 1) ∧
    (∀ (s : S) (p : Nat) (g : Nat), outCount g (onClose s p (some 0)).2 = 0) ∧
    (∀ (s : S) (g : Nat) (es : List Event), Retired s g →
        outCount g (run s es).2 = 0) := by
  refine ⟨fun es g => (inv_trace es).2.2 g, ?_,
          fun s g es h => (retired_run h es).2⟩
  intro s p g
  unfold onClose
  cases hb : getBuf s.buffers p with
  | none => rfl
  | some b =>
      simp only [hb]
      rw [if_neg (fun hcon => hcon.1 rfl)]
      exact outCount_cleanup g s

/-- C3 witness: Request 0 of the exit-code-0 trace is retired, and a
subsequent timer fire still produces no outcome for it. -/
theorem claim_C3_amended_witness :
    Retired (run S0 esC3).1 0 ∧
    outCount 0 (run (run S0 esC3).1 [.timerFire 0]).2 = 0 := by
  have h1 : (run S0 esC3).1.waitingNode = none := by decide
  have h2 : (run S0 esC3).1.nextGen = 1 := by decide
  have hr : Retired (run S0 esC3).1 0 :=
    ⟨(by rw [h1]; exact fun hc => by cases hc), by omega⟩
  exact ⟨hr, claim_C3_amended.2.2 (run S0 esC3).1 0 [.timerFire 0] hr⟩

end HumanDetection
